import Mathlib

/-!
# es-golang-client-demo: a verification development of `main.go`

The program is a client of a search engine: it asks for the cluster info,
indexes the titles of a list concurrently (one goroutine per title, joined by
a `sync.WaitGroup`), runs one search and prints the hits.

Everything outside `main.go` is a collaborator and enters the model as data:

* the search-engine client (`es.Info`, `req.Do`, `es.Search`) is a record of
  answers, each either a transport error or a response;
* a response is what the program observes of it: `IsError()`, `Status()` and
  the outcome of the one `json.NewDecoder(res.Body).Decode(&r)` call made on it;
* `log.Printf` appends a line to the trace, `log.Fatalf` appends a line and
  then exits with status 1, a failed type assertion panics.

Conventions of the model:

* a Go `int` is a mathematical integer wrapped to 64 bits (`wrapInt`);
* a Go `string` is a Unicode text; an `error` is its message;
* a `float64` is kept as what the program can observe of it (`Float64`);
* the decoder is called at most once on a response, so a response carries the
  outcome of that call; a nil map and an empty map read alike;
* the goroutines of the fan-out interleave event by event under a schedule
  (`interleave`); an exit or a panic in one goroutine ends the whole process.
-/

namespace EsDemo

/-! ## Go values -/

/-- Go `int` on a 64-bit target: two's-complement wrap-around of a
mathematical integer. -/
def wrapInt (x : Int) : Int := (x + 2 ^ 63) % 2 ^ 64 - 2 ^ 63

/-- Largest value of a Go `int` on a 64-bit target. -/
def maxInt : Int := 2 ^ 63 - 1

/-- Decimal rendering of a Go `int`, as `strconv.Itoa` and the verb `%d` give
it: an optional minus sign and the decimal digits of the magnitude. -/
def Itoa (n : Int) : String :=
  if n < 0 then "-" ++ Nat.repr n.natAbs else Nat.repr n.natAbs

/-- A `float64` held in a decoded JSON document, as far as the program can
observe it: the result of the conversion `int(f)` and the text `fmt` prints
for it under `%v`. -/
structure Float64 where
  toInt : Int
  fmtV : String

/-- The dynamic values `encoding/json` stores in an `interface{}`:
`nil`, `bool`, `float64`, `string`, `[]interface{}` and
`map[string]interface{}` (a map is kept as its list of entries). -/
inductive Value where
  | null : Value
  | bool (b : Bool) : Value
  | num (f : Float64) : Value
  | str (s : String) : Value
  | arr (xs : List Value) : Value
  | obj (kvs : List (String × Value)) : Value

/-- A `map[string]interface{}`, as its list of entries. -/
abbrev JMap := List (String × Value)

/-- Map indexing `r[key]`: the stored value, or the zero value `nil` when the
key is absent (also on a nil map). -/
def index : JMap → String → Value
  | [], _ => Value.null
  | (k, v) :: rest, key => if k = key then v else index rest key

/-! ## The collaborator -/

/-- The fields of `esapi.IndexRequest` that `requestIndex` sets. -/
structure IndexRequest where
  Index : String
  DocumentID : String
  Body : String
  Refresh : String
deriving DecidableEq

/-- An `*esapi.Response` as the program observes it. -/
structure Response where
  IsError : Bool
  Status : String
  Decode : Except String JMap

/-- The search-engine client: every call answers with a transport error
(the text of `err`) or with a response. -/
structure Client where
  Info : Except String Response
  Do : IndexRequest → Except String Response
  Search : Except String Response

/-! ## Effects -/

/-- What the program does that can be seen from outside. -/
inductive Event where
  | info : Event
  | indexReq (req : IndexRequest) : Event
  | search : Event
  | log (line : String) : Event
deriving DecidableEq

/-- How a piece of the program ends: it returns, the process exits
(`log.Fatalf` calls `os.Exit(1)`), or a type assertion panics. -/
inductive Outcome (α : Type) where
  | ok (a : α) : Outcome α
  | exit (code : Nat) : Outcome α
  | panic : Outcome α
deriving DecidableEq

/-- A run: the events in order and the way it ended. -/
structure Run (α : Type) where
  trace : List Event
  out : Outcome α
deriving DecidableEq

/-- The lines a trace logs, in order. -/
def logLines : List Event → List String
  | [] => []
  | Event.log l :: es => l :: logLines es
  | _ :: es => logLines es

/-- The index requests a trace issues, in order. -/
def indexRequests : List Event → List IndexRequest
  | [] => []
  | Event.indexReq r :: es => r :: indexRequests es
  | _ :: es => indexRequests es

/-- Sequencing: the second part runs only when the first returns. -/
def Run.andThen {α β : Type} (m : Run α) (f : α → Run β) : Run β :=
  match m.out with
  | Outcome.ok a => ⟨m.trace ++ (f a).trace, (f a).out⟩
  | Outcome.exit c => ⟨m.trace, Outcome.exit c⟩
  | Outcome.panic => ⟨m.trace, Outcome.panic⟩

/-- The call `log.Printf` or `log.Println`: one line, then go on. -/
def logPrint (line : String) : Run Unit := ⟨[Event.log line], Outcome.ok ()⟩

/-- The call `log.Fatalf`: one line, then `os.Exit(1)`. -/
def logFatal {α : Type} (line : String) : Run α := ⟨[Event.log line], Outcome.exit 1⟩

/-! ## Formatting under the verb `%s` -/

/-- Lexicographic order of two texts by code point, which is the order of
their UTF-8 bytes, the one Go compares strings by. -/
def lessChars : List Char → List Char → Bool
  | _, [] => false
  | [], _ :: _ => true
  | a :: as, b :: bs => a.toNat < b.toNat || (a.toNat == b.toNat && lessChars as bs)

/-- Insertion of a rendered map entry by key order (`fmt` prints a map with
its keys sorted). -/
def insertByKey (e : String × String) : List (String × String) → List (String × String)
  | [] => [e]
  | x :: xs => if lessChars x.1.data e.1.data then x :: insertByKey e xs else e :: x :: xs

/-- Rendered map entries, sorted by key. -/
def sortByKey : List (String × String) → List (String × String)
  | [] => []
  | e :: es => insertByKey e (sortByKey es)

/-- Strings joined by single blanks. -/
def joinBlank : List String → String
  | [] => ""
  | [s] => s
  | s :: rest => s ++ " " ++ joinBlank rest

mutual
/-- Rendering by `fmt` with `%s` of a value held inside a map, a slice or an
interface: a string is written as it is, a slice as `[a b]`, a map as
`map[k:v k:v]`, `nil` as `<nil>`, and a `bool` or `float64`, for which `%s`
is no verb, as `%!s(type=value)`. -/
def fmtValue : Value → String
  | Value.null => "<nil>"
  | Value.bool b => "%!s(bool=" ++ (if b then "true" else "false") ++ ")"
  | Value.num f => "%!s(float64=" ++ f.fmtV ++ ")"
  | Value.str s => s
  | Value.arr xs => "[" ++ joinBlank (fmtElems xs) ++ "]"
  | Value.obj kvs =>
    "map[" ++ joinBlank ((sortByKey (fmtEntries kvs)).map fun p => p.1 ++ ":" ++ p.2) ++ "]"
/-- Rendering of the elements of a slice. -/
def fmtElems : List Value → List String
  | [] => []
  | v :: vs => fmtValue v :: fmtElems vs
/-- Rendering of the entries of a map, each with its key. -/
def fmtEntries : List (String × Value) → List (String × String)
  | [] => []
  | (k, v) :: rest => (k, fmtValue v) :: fmtEntries rest
end

/-- Rendering by `fmt` with `%s` of an `interface{}` operand: a `nil` operand
is written `%!s(<nil>)`, any other as `fmtValue`. -/
def fmtS : Value → String
  | Value.null => "%!s(<nil>)"
  | v => fmtValue v

/-! ## `main.go` -/

/-- Lines 46-52: `getClusterInfo`. -/
def getClusterInfo (es : Client) : Run Response :=
  match es.Info with
  | Except.error err => ⟨[Event.info, Event.log ("Error getting response: " ++ err)], Outcome.exit 1⟩
  | Except.ok res => ⟨[Event.info], Outcome.ok res⟩

/-- Lines 54-60: `decodeClusterInfo`. -/
def decodeClusterInfo (res : Response) : Run JMap :=
  match res.Decode with
  | Except.error err => logFatal ("Error parsing the response body: " ++ err)
  | Except.ok r => ⟨[], Outcome.ok r⟩

/-- Lines 64-69: the request object `requestIndex` sets up. -/
def indexRequest (i : Int) (title : String) : IndexRequest :=
  { Index := "test"
    DocumentID := Itoa (wrapInt (i + 1))
    Body := "\x7b\"title\" : \"" ++ title ++ "\"\x7d"
    Refresh := "true" }

/-- Lines 62-90: `requestIndex`. The operands of the last `log.Printf` are
evaluated before the call, so a failed assertion `.(float64)` panics with
nothing logged. -/
def requestIndex (es : Client) (i : Int) (title : String) : Run Unit :=
  let req := indexRequest i title
  match es.Do req with
  | Except.error err =>
    ⟨[Event.indexReq req, Event.log ("Error getting response: " ++ err)], Outcome.exit 1⟩
  | Except.ok res =>
    if res.IsError then
      ⟨[Event.indexReq req,
        Event.log ("[" ++ res.Status ++ "] Error indexing document ID=" ++ Itoa (wrapInt (i + 1)))],
        Outcome.ok ()⟩
    else
      match res.Decode with
      | Except.error err =>
        ⟨[Event.indexReq req, Event.log ("Error parsing the response body: " ++ err)],
          Outcome.ok ()⟩
      | Except.ok r =>
        match index r "_version" with
        | Value.num f =>
          ⟨[Event.indexReq req,
            Event.log ("[" ++ res.Status ++ "] " ++ fmtS (index r "result") ++ "; version="
              ++ Itoa f.toInt)],
            Outcome.ok ()⟩
        | _ => ⟨[Event.indexReq req], Outcome.panic⟩

/-- Lines 92-110: `decodeResponse`. -/
def decodeResponse (res : Response) (status : String) : Run JMap :=
  if res.IsError then
    match res.Decode with
    | Except.error err => logFatal ("error parsing the response body: " ++ err)
    | Except.ok r =>
      match index r "error" with
      | Value.obj e =>
        logFatal ("[" ++ status ++ "] " ++ fmtS (index e "type") ++ ": "
          ++ fmtS (index e "reason"))
      | _ => ⟨[], Outcome.panic⟩
  else
    match res.Decode with
    | Except.error err => logFatal ("Error parsing the response body: " ++ err)
    | Except.ok r => ⟨[], Outcome.ok r⟩

/-- The line `printResult` logs for one hit. -/
def hitLine (m : JMap) : String :=
  " * ID=" ++ fmtS (index m "_id") ++ ", " ++ fmtS (index m "_source")

/-- Lines 123-125: the loop of `printResult` over the hits. -/
def printHits : List Value → Run Unit
  | [] => ⟨[], Outcome.ok ()⟩
  | Value.obj m :: rest => (logPrint (hitLine m)).andThen fun _ => printHits rest
  | _ :: _ => ⟨[], Outcome.panic⟩

/-- Lines 112-126: `printResult`. -/
def printResult (r : JMap) (_status : String) : Run Unit :=
  match index r "hits" with
  | Value.obj h =>
    match index h "hits" with
    | Value.arr hits => printHits hits
    | _ => ⟨[], Outcome.panic⟩
  | _ => ⟨[], Outcome.panic⟩

/-- Line 151: the version line; the assertion on `r["version"]` panics when
the field is no object. -/
def logVersion (r : JMap) : Run Unit :=
  match index r "version" with
  | Value.obj v => logPrint ("~~~~~~~> Elasticsearch " ++ fmtS (index v "number"))
  | _ => ⟨[], Outcome.panic⟩

/-! ### The fan-out (lines 155-163)

Each goroutine runs `requestIndex` and then, deferred, `wg.Done()`. Its
actions are the events of its run, one at a time, and then its end: a return
(the goroutine is done), an exit or a panic (the process is over, no deferred
call of another goroutine runs). A schedule names the goroutine that acts
next; `wg.Wait()` returns once every goroutine is done. -/

/-- A run of the goroutines: every event with the position of the goroutine
it belongs to, and the way the group ended (`ok`: `wg.Wait()` returned). -/
structure Fanout where
  trace : List (Nat × Event)
  out : Outcome Unit
deriving DecidableEq

/-- The goroutines the loop launches for the titles at positions `i`,
`i + 1`, ... -/
def spawn (es : Client) : Nat → List String → List (Run Unit)
  | _, [] => []
  | i, title :: rest => requestIndex es (i : Int) title :: spawn es (i + 1) rest

/-- The goroutines from position `k` on run to their ends one after the
other. -/
def drain : Nat → List (Run Unit) → Fanout
  | _, [] => ⟨[], Outcome.ok ()⟩
  | k, t :: ts =>
    match t.out with
    | Outcome.ok _ =>
      ⟨t.trace.map (Prod.mk k) ++ (drain (k + 1) ts).trace, (drain (k + 1) ts).out⟩
    | Outcome.exit c => ⟨t.trace.map (Prod.mk k), Outcome.exit c⟩
    | Outcome.panic => ⟨t.trace.map (Prod.mk k), Outcome.panic⟩

/-- The goroutines act in the order the schedule names them (an entry naming
no goroutine, or one that is done, is passed over); when the schedule is used
up the goroutines left run to their ends in turn. -/
def interleave : List (Run Unit) → List Nat → Fanout
  | tasks, [] => drain 0 tasks
  | tasks, k :: sched =>
    match tasks[k]? with
    | none => interleave tasks sched
    | some t =>
      match t.trace with
      | e :: es =>
        ⟨(k, e) :: (interleave (tasks.set k ⟨es, t.out⟩) sched).trace,
          (interleave (tasks.set k ⟨es, t.out⟩) sched).out⟩
      | [] =>
        match t.out with
        | Outcome.ok _ => interleave tasks sched
        | Outcome.exit c => ⟨[], Outcome.exit c⟩
        | Outcome.panic => ⟨[], Outcome.panic⟩

/-- The events of goroutine `j` in a run of the group, in order. -/
def eventsOf (j : Nat) : List (Nat × Event) → List Event
  | [] => []
  | (k, e) :: rest => if k = j then e :: eventsOf j rest else eventsOf j rest

/-- Lines 155-163 for a list of titles: launch the goroutines, then wait. -/
def indexDocumentsTagged (es : Client) (titles : List String) (sched : List Nat) : Fanout :=
  interleave (spawn es 0 titles) sched

/-- Lines 155-163 for a list of titles, as a part of `main`. -/
def indexDocuments (es : Client) (titles : List String) (sched : List Nat) : Run Unit :=
  ⟨(indexDocumentsTagged es titles sched).trace.map Prod.snd,
    (indexDocumentsTagged es titles sched).out⟩

/-- Lines 36-42: `newClient`, over the outcome of
`elasticsearch.NewDefaultClient()`. -/
def newClient (env : Except String Client) : Run Client :=
  match env with
  | Except.error err => logFatal ("Error creating the client: " ++ err)
  | Except.ok es => ⟨[], Outcome.ok es⟩

/-- The text `strings.Repeat(s, 37)` for a one-character `s`. -/
def rule (c : Char) : String := String.mk (List.replicate 37 c)

/-- Lines 170-179: the search call. -/
def search (es : Client) : Run Response :=
  match es.Search with
  | Except.error err => ⟨[Event.search, Event.log ("ERROR: " ++ err)], Outcome.exit 1⟩
  | Except.ok res => ⟨[Event.search], Outcome.ok res⟩

/-- Lines 167-186: the third step of `main`. -/
def searchStep (es : Client) : Run Unit :=
  (search es).andThen fun res =>
  (decodeResponse res res.Status).andThen fun r =>
  (printResult r res.Status).andThen fun _ =>
  logPrint (rule '=')

/-- Lines 128-187: `main`, over the outcome of the client's construction and
the schedule of the goroutines. -/
def main (env : Except String Client) (sched : List Nat) : Run Unit :=
  (newClient env).andThen fun es =>
  (getClusterInfo es).andThen fun res =>
  (decodeClusterInfo res).andThen fun r =>
  (logVersion r).andThen fun _ =>
  (indexDocuments es ["Test One", "Test Two"] sched).andThen fun _ =>
  (logPrint (rule '-')).andThen fun _ =>
  searchStep es

/-! ## JSON texts (RFC 8259), as far as the body of an index request goes -/

/-- Insignificant whitespace of a JSON text. -/
def isWs (c : Char) : Bool := c = ' ' || c = '\t' || c = '\n' || c = '\r'

/-- The text after its leading whitespace. -/
def skipWs : List Char → List Char
  | [] => []
  | c :: cs => if isWs c then skipWs cs else c :: cs

/-- The value of a hexadecimal digit. -/
def hexVal (c : Char) : Option Nat :=
  if 48 ≤ c.toNat ∧ c.toNat ≤ 57 then some (c.toNat - 48)
  else if 97 ≤ c.toNat ∧ c.toNat ≤ 102 then some (c.toNat - 87)
  else if 65 ≤ c.toNat ∧ c.toNat ≤ 70 then some (c.toNat - 55)
  else none

/-- The code unit written by the four hexadecimal digits of a `\u` escape. -/
def hex4 (a b c d : Char) : Option Nat :=
  match hexVal a, hexVal b, hexVal c, hexVal d with
  | some w, some x, some y, some z => some (((w * 16 + x) * 16 + y) * 16 + z)
  | _, _, _, _ => none

/-- The character a two-character escape stands for. -/
def unescape (c : Char) : Option Char :=
  if c = '"' then some '"'
  else if c = '\\' then some '\\'
  else if c = '/' then some '/'
  else if c = 'b' then some (Char.ofNat 8)
  else if c = 'f' then some (Char.ofNat 12)
  else if c = 'n' then some '\n'
  else if c = 'r' then some '\r'
  else if c = 't' then some '\t'
  else none

/-- The characters a `\u` escape with code unit `n` stands for, and the text
after it: a high surrogate followed by an escaped low surrogate is one
character, a surrogate on its own is U+FFFD. -/
def unicodeEscape (n : Nat) (rest : List Char) : Char × List Char :=
  if 0xD800 ≤ n ∧ n ≤ 0xDBFF then
    match rest with
    | '\\' :: 'u' :: a :: b :: c :: d :: rest' =>
      match hex4 a b c d with
      | some m =>
        if 0xDC00 ≤ m ∧ m ≤ 0xDFFF then
          (Char.ofNat (0x10000 + (n - 0xD800) * 0x400 + (m - 0xDC00)), rest')
        else (Char.ofNat 0xFFFD, rest)
      | none => (Char.ofNat 0xFFFD, rest)
    | _ => (Char.ofNat 0xFFFD, rest)
  else if 0xDC00 ≤ n ∧ n ≤ 0xDFFF then (Char.ofNat 0xFFFD, rest)
  else (Char.ofNat n, rest)

/-- A JSON string from just after its opening quote, within `fuel`
characters: the text it denotes and what follows its closing quote. No
unescaped control character, quote or backslash stands inside a string. -/
def scanString : Nat → List Char → Option (List Char × List Char)
  | 0, _ => none
  | _, [] => none
  | fuel + 1, c :: cs =>
    if c = '"' then some ([], cs)
    else if c = '\\' then
      match cs with
      | 'u' :: w :: x :: y :: z :: rest =>
        match hex4 w x y z with
        | some n =>
          match scanString fuel (unicodeEscape n rest).2 with
          | some (v, after) => some ((unicodeEscape n rest).1 :: v, after)
          | none => none
        | none => none
      | e :: rest =>
        match unescape e with
        | some ch =>
          match scanString fuel rest with
          | some (v, after) => some (ch :: v, after)
          | none => none
        | none => none
      | [] => none
    else if c.toNat < 0x20 then none
    else
      match scanString fuel cs with
      | some (v, after) => some (c :: v, after)
      | none => none

/-- The text after one expected character. -/
def expect (c : Char) : List Char → Option (List Char)
  | [] => none
  | d :: cs => if d = c then some cs else none

/-- A JSON text that is an object with exactly one member whose value is a
string, read as that member's name and value; `none` for any other text. -/
def singleStringMember (text : String) : Option (String × String) :=
  match expect '{' (skipWs text.data) with
  | none => none
  | some t1 =>
  match expect '"' (skipWs t1) with
  | none => none
  | some t2 =>
  match scanString (t2.length + 1) t2 with
  | none => none
  | some (name, t3) =>
  match expect ':' (skipWs t3) with
  | none => none
  | some t4 =>
  match expect '"' (skipWs t4) with
  | none => none
  | some t5 =>
  match scanString (t5.length + 1) t5 with
  | none => none
  | some (value, t6) =>
  match expect '}' (skipWs t6) with
  | none => none
  | some t7 =>
  match skipWs t7 with
  | [] => some (String.mk name, String.mk value)
  | _ :: _ => none

/-! ## Measures of the fan-out, for the statements -/

/-- The events goroutine `j` still has to perform. -/
def taskTrace (tasks : List (Run Unit)) (j : Nat) : List Event :=
  match tasks[j]? with
  | some t => t.trace
  | none => []

/-- The number of lines the goroutines still have to log. -/
def pendingLogs : List (Run Unit) → Nat
  | [] => 0
  | t :: ts => (logLines t.trace).length + pendingLogs ts


/-- An answer to an index call on which `requestIndex` logs one line and
returns: an engine-reported error, a body that fails to decode, or a decoded
envelope whose `_version` is a number. -/
def loggedAndReturned : Except String Response → Bool
  | Except.error _ => false
  | Except.ok res =>
    res.IsError ||
      match res.Decode with
      | Except.error _ => true
      | Except.ok r =>
        match index r "_version" with
        | Value.num _ => true
        | _ => false

/-! ## Texts, for the statements -/

/-- Whether the text begins with the pattern. -/
def startsWith : List Char → List Char → Bool
  | _, [] => true
  | [], _ :: _ => false
  | c :: cs, p :: ps => c == p && startsWith cs ps

/-- Whether the pattern occurs somewhere in the text. -/
def occursIn (pattern : List Char) : List Char → Bool
  | [] => pattern.isEmpty
  | c :: cs => startsWith (c :: cs) pattern || occursIn pattern cs

/-! ## Sample collaborators -/

/-- The answer of a healthy engine to an index call. -/
def indexed : Response :=
  ⟨false, "200 OK",
    Except.ok [("result", Value.str "updated"), ("_version", Value.num ⟨1, "1"⟩)]⟩

/-- The answer of a healthy engine to an index call that replaces a document
indexed once before. -/
def reindexed : Response :=
  ⟨false, "200 OK",
    Except.ok [("result", Value.str "updated"), ("_version", Value.num ⟨2, "2"⟩)]⟩

/-- The answer of a healthy engine to the cluster-info call. -/
def infoReply : Response :=
  ⟨false, "200 OK",
    Except.ok [("version", Value.obj [("number", Value.str "7.8.0-SNAPSHOT")])]⟩

/-- The hit for a document: its identifier and its source. -/
def hit (id title : String) : JMap :=
  [("_id", Value.str id), ("_source", Value.obj [("title", Value.str title)])]

/-- The `hits` object of a search that found the two documents. -/
def twoHits : JMap :=
  [("total", Value.num ⟨2, "2"⟩),
    ("hits", Value.arr ([hit "1" "Test One", hit "2" "Test Two"].map Value.obj))]

/-- The envelope of a search that found the two documents. -/
def searchEnvelope : JMap := [("took", Value.num ⟨7, "7"⟩), ("hits", Value.obj twoHits)]

/-- The answer of a healthy engine to the search, with the two documents. -/
def searchReply : Response := ⟨false, "200 OK", Except.ok searchEnvelope⟩

/-- An error envelope of the engine, with its status line. -/
def errorReply (status type reason : String) : Response :=
  ⟨true, status,
    Except.ok [("error", Value.obj [("type", Value.str type), ("reason", Value.str reason)])]⟩

/-- An engine-reported error whose body holds its `error` as a text, the
shape of the answer to a request with a wrong HTTP method. -/
def methodNotAllowed : Response :=
  ⟨true, "405 Method Not Allowed",
    Except.ok [("error", Value.str "Incorrect HTTP method"), ("status", Value.num ⟨405, "405"⟩)]⟩

/-- A non-error answer whose body does not decode. -/
def garbledReply : Response := ⟨false, "200 OK", Except.error "unexpected end of JSON input"⟩

/-- A client that answers the cluster-info call, the index call for document
"1" and the search as given, and every other index call as a healthy engine. -/
def clientWith (info doc1 search : Except String Response) : Client :=
  { Info := info
    Do := fun req => if req.DocumentID = "1" then doc1 else Except.ok indexed
    Search := search }

/-- A healthy engine throughout. -/
def demoClient : Client :=
  clientWith (Except.ok infoReply) (Except.ok indexed) (Except.ok searchReply)

/-- A healthy engine, except that the index call for document "1" fails in
the transport. -/
def refusedClient : Client :=
  clientWith (Except.ok infoReply) (Except.error "connection refused") (Except.ok searchReply)

/-- A healthy engine, except that it rejects the index call for document "1". -/
def rejectingClient : Client :=
  clientWith (Except.ok infoReply)
    (Except.ok (errorReply "429 Too Many Requests" "es_rejected_execution_exception" "queue full"))
    (Except.ok searchReply)

/-! ## Lemmas on the values -/

theorem wrapInt_of_inRange (x : Int) (h0 : 0 ≤ x) (h1 : x ≤ maxInt) : wrapInt x = x := by
  unfold wrapInt
  unfold maxInt at h1
  norm_num at h1 ⊢
  omega

theorem Itoa_natCast (n : Nat) : Itoa (n : Int) = Nat.repr n := by
  unfold Itoa
  have h : ¬ ((n : Int) < 0) := by omega
  simp [h]

theorem Itoa_position (i : Nat) (h : (i : Int) + 1 ≤ maxInt) :
    Itoa (wrapInt ((i : Int) + 1)) = Nat.repr (i + 1) := by
  have hw : wrapInt ((i : Int) + 1) = ((i + 1 : Nat) : Int) := by
    rw [wrapInt_of_inRange _ (by omega) h]; push_cast; rfl
  rw [hw, Itoa_natCast]

/-- The bound on the position matters: at `maxInt` the sum `i + 1` wraps and
the identifier is negative. -/
theorem documentID_wraps_at_maxInt :
    (indexRequest maxInt "Test One").DocumentID = "-9223372036854775808" := by
  decide

theorem documentID_of_position (i : Nat) (title : String) (h : (i : Int) + 1 ≤ maxInt) :
    (indexRequest (i : Int) title).DocumentID = Nat.repr (i + 1) := by
  simp only [indexRequest]
  exact Itoa_position i h

theorem requestIndex_requests (es : Client) (i : Int) (title : String) :
    indexRequests (requestIndex es i title).trace = [indexRequest i title] := by
  unfold requestIndex
  simp only []
  split
  · rfl
  · split
    · rfl
    · split
      · rfl
      · split <;> rfl

/-! ## Lemmas on the fan-out -/

theorem eventsOf_tagged_append (j k : Nat) (l : List Event) (rest : List (Nat × Event)) :
    eventsOf j (l.map (Prod.mk k) ++ rest) = (if k = j then l else []) ++ eventsOf j rest := by
  induction l with
  | nil => simp
  | cons e es ih =>
    by_cases h : k = j
    · simp [eventsOf, h] at ih ⊢
      exact ih
    · simp [eventsOf, h] at ih ⊢
      exact ih

theorem logLines_append (a b : List Event) : logLines (a ++ b) = logLines a ++ logLines b := by
  induction a with
  | nil => rfl
  | cons e es ih => cases e <;> simp [logLines, ih]

theorem map_snd_tagged (k : Nat) (l : List Event) : (l.map (Prod.mk k)).map Prod.snd = l := by
  induction l with
  | nil => rfl
  | cons e es ih => simp

theorem drain_returns (tasks : List (Run Unit)) (h : ∀ t ∈ tasks, t.out = Outcome.ok ()) :
    ∀ k, (drain k tasks).out = Outcome.ok () ∧
      (∀ j, eventsOf j (drain k tasks).trace = if k ≤ j then taskTrace tasks (j - k) else []) ∧
      (logLines ((drain k tasks).trace.map Prod.snd)).length = pendingLogs tasks := by
  induction tasks with
  | nil =>
    intro k
    refine ⟨rfl, ?_, rfl⟩
    intro j
    simp [drain, eventsOf, taskTrace]
  | cons t ts ih =>
    intro k
    have ht : t.out = Outcome.ok () := h t (List.mem_cons_self _ _)
    have hts : ∀ t' ∈ ts, t'.out = Outcome.ok () := fun t' ht' => h t' (List.mem_cons_of_mem _ ht')
    obtain ⟨ih1, ih2, ih3⟩ := ih hts (k + 1)
    simp only [drain, ht]
    refine ⟨ih1, ?_, ?_⟩
    · intro j
      rw [eventsOf_tagged_append, ih2 j]
      by_cases hkj : k = j
      · subst hkj
        simp [taskTrace]
      · by_cases hle : k ≤ j
        · have h1 : k + 1 ≤ j := by omega
          have h2 : j - k = (j - (k + 1)) + 1 := by omega
          simp [hkj, hle, h1, taskTrace, h2]
        · have h1 : ¬ (k + 1 ≤ j) := by omega
          simp [hkj, hle, h1]
    · rw [List.map_append, map_snd_tagged, logLines_append, List.length_append, ih3]
      rfl

theorem pendingLogs_set (tasks : List (Run Unit)) (k : Nat) (t : Run Unit) (e : Event)
    (es : List Event) (hk : tasks[k]? = some t) (ht : t.trace = e :: es) :
    pendingLogs tasks = (logLines [e]).length + pendingLogs (tasks.set k ⟨es, t.out⟩) := by
  induction tasks generalizing k with
  | nil => simp at hk
  | cons a as ih =>
    cases k with
    | zero =>
      simp at hk
      subst hk
      simp only [List.set, pendingLogs, ht]
      have : logLines (e :: es) = logLines [e] ++ logLines es := logLines_append [e] es
      rw [this, List.length_append]
      omega
    | succ n =>
      simp at hk
      simp only [List.set, pendingLogs]
      rw [ih n hk]
      omega

theorem taskTrace_set (tasks : List (Run Unit)) (k j : Nat) (t a : Run Unit)
    (hk : tasks[k]? = some t) :
    taskTrace (tasks.set k a) j = if k = j then a.trace else taskTrace tasks j := by
  have hlt : k < tasks.length := (List.getElem?_eq_some.1 hk).1
  unfold taskTrace
  by_cases h : k = j
  · subst h
    simp [List.getElem?_set, hlt]
  · simp [List.getElem?_set, h]

theorem interleave_returns (sched : List Nat) :
    ∀ tasks : List (Run Unit), (∀ t ∈ tasks, t.out = Outcome.ok ()) →
      (interleave tasks sched).out = Outcome.ok () ∧
      (∀ j, eventsOf j (interleave tasks sched).trace = taskTrace tasks j) ∧
      (logLines ((interleave tasks sched).trace.map Prod.snd)).length = pendingLogs tasks := by
  induction sched with
  | nil =>
    intro tasks h
    obtain ⟨h1, h2, h3⟩ := drain_returns tasks h 0
    refine ⟨h1, ?_, h3⟩
    intro j
    have := h2 j
    simpa [interleave] using this
  | cons k sched ih =>
    intro tasks h
    cases hk : tasks[k]? with
    | none =>
      simp only [interleave, hk]
      exact ih tasks h
    | some t =>
      have hmem : t ∈ tasks := List.getElem?_mem hk
      have htout : t.out = Outcome.ok () := h t hmem
      cases htr : t.trace with
      | nil =>
        simp only [interleave, hk, htr, htout]
        exact ih tasks h
      | cons e es =>
        have hset : ∀ t' ∈ tasks.set k ⟨es, t.out⟩, t'.out = Outcome.ok () := by
          intro t' ht'
          rcases List.mem_or_eq_of_mem_set ht' with h' | h'
          · exact h t' h'
          · rw [h']; exact htout
        obtain ⟨h1, h2, h3⟩ := ih _ hset
        simp only [interleave, hk, htr]
        refine ⟨h1, ?_, ?_⟩
        · intro j
          rw [eventsOf]
          rw [h2 j, taskTrace_set tasks k j t _ hk]
          by_cases hkj : k = j
          · subst hkj
            simp [taskTrace, hk, htr]
          · simp [hkj]
        · rw [pendingLogs_set tasks k t e es hk htr, ← h3]
          cases e <;> simp [logLines]
          omega

theorem drain_stops (tasks : List (Run Unit)) :
    ∀ k, (∃ (j : Nat) (t : Run Unit), tasks[j]? = some t ∧ t.out ≠ Outcome.ok ()) →
      (drain k tasks).out ≠ Outcome.ok () := by
  induction tasks with
  | nil =>
    intro k h
    obtain ⟨j, t, hj, _⟩ := h
    simp at hj
  | cons a as ih =>
    intro k h
    obtain ⟨j, t, hj, ht⟩ := h
    cases ha : a.out with
    | ok u =>
      simp only [drain, ha]
      apply ih
      cases j with
      | zero =>
        simp at hj
        subst hj
        exact absurd ha ht
      | succ n =>
        simp at hj
        exact ⟨n, t, hj, ht⟩
    | exit c => simp [drain, ha]
    | panic => simp [drain, ha]

theorem interleave_stops (sched : List Nat) :
    ∀ tasks : List (Run Unit), (∃ (j : Nat) (t : Run Unit), tasks[j]? = some t ∧ t.out ≠ Outcome.ok ()) →
      (interleave tasks sched).out ≠ Outcome.ok () := by
  induction sched with
  | nil =>
    intro tasks h
    simpa [interleave] using drain_stops tasks 0 h
  | cons k sched ih =>
    intro tasks h
    cases hk : tasks[k]? with
    | none =>
      simp only [interleave, hk]
      exact ih tasks h
    | some t =>
      cases htr : t.trace with
      | nil =>
        cases hout : t.out with
        | ok u =>
          simp only [interleave, hk, htr, hout]
          exact ih tasks h
        | exit c => simp [interleave, hk, htr, hout]
        | panic => simp [interleave, hk, htr, hout]
      | cons e es =>
        simp only [interleave, hk, htr]
        apply ih
        obtain ⟨j, t', hj, ht'⟩ := h
        have hlt : k < tasks.length := (List.getElem?_eq_some.1 hk).1
        by_cases hkj : k = j
        · subst hkj
          refine ⟨k, ⟨es, t.out⟩, ?_, ?_⟩
          · simp [List.getElem?_set, hlt]
          · rw [hk] at hj
            cases hj
            exact ht'
        · refine ⟨j, t', ?_, ht'⟩
          simp [List.getElem?_set, hkj, hj]

theorem spawn_get (es : Client) (titles : List String) :
    ∀ (i j : Nat), (spawn es i titles)[j]? =
      (titles[j]?).map fun t => requestIndex es ((i + j : Nat) : Int) t := by
  induction titles with
  | nil => intro i j; simp [spawn]
  | cons t ts ih =>
    intro i j
    cases j with
    | zero => simp [spawn]
    | succ n =>
      simp only [spawn, List.getElem?_cons_succ, ih (i + 1) n]
      have : i + 1 + n = i + (n + 1) := by omega
      rw [this]

theorem spawn_mem (es : Client) (titles : List String) (t : Run Unit)
    (h : t ∈ spawn es 0 titles) :
    ∃ (j : Nat) (title : String), titles[j]? = some title ∧ t = requestIndex es (j : Int) title := by
  obtain ⟨j, hj⟩ := List.mem_iff_getElem?.1 h
  rw [spawn_get] at hj
  cases ht : titles[j]? with
  | none => simp [ht] at hj
  | some title =>
    simp [ht] at hj
    exact ⟨j, title, ht, hj.symm⟩

theorem requestIndex_loggedAndReturned (es : Client) (i : Int) (title : String)
    (h : loggedAndReturned (es.Do (indexRequest i title)) = true) :
    (requestIndex es i title).out = Outcome.ok () ∧
      (logLines (requestIndex es i title).trace).length = 1 := by
  unfold requestIndex
  simp only []
  cases hdo : es.Do (indexRequest i title) with
  | error err => simp [hdo, loggedAndReturned] at h
  | ok res =>
    simp only [hdo, loggedAndReturned] at h
    by_cases he : res.IsError = true
    · simp [he, logLines]
    · simp only [he, Bool.false_or] at h
      simp only [he]
      cases hd : res.Decode with
      | error err => simp [logLines]
      | ok r =>
        simp only [hd] at h
        cases hv : index r "_version" <;> simp [hv] at h
        simp [hv, logLines]

theorem pendingLogs_eq_length (tasks : List (Run Unit))
    (h : ∀ t ∈ tasks, (logLines t.trace).length = 1) : pendingLogs tasks = tasks.length := by
  induction tasks with
  | nil => rfl
  | cons t ts ih =>
    simp only [pendingLogs, List.length_cons]
    rw [h t (List.mem_cons_self _ _), ih fun t' ht' => h t' (List.mem_cons_of_mem _ ht')]
    omega

theorem spawn_length (es : Client) (titles : List String) :
    ∀ i, (spawn es i titles).length = titles.length := by
  induction titles with
  | nil => intro i; rfl
  | cons t ts ih => intro i; simp [spawn, ih]


theorem drain_events (Q : Event → Prop) (tasks : List (Run Unit))
    (h : ∀ t ∈ tasks, ∀ e ∈ t.trace, Q e) :
    ∀ k, ∀ p ∈ (drain k tasks).trace, Q p.2 := by
  induction tasks with
  | nil => intro k p hp; simp [drain] at hp
  | cons t ts ih =>
    intro k p hp
    have ht : ∀ e ∈ t.trace, Q e := h t (List.mem_cons_self _ _)
    have hts : ∀ t' ∈ ts, ∀ e ∈ t'.trace, Q e := fun t' ht' => h t' (List.mem_cons_of_mem _ ht')
    have hhead : ∀ p ∈ t.trace.map (Prod.mk k), Q p.2 := by
      intro p hp
      obtain ⟨e, he, rfl⟩ := List.mem_map.1 hp
      exact ht e he
    cases hout : t.out with
    | ok u =>
      simp only [drain, hout] at hp
      rcases List.mem_append.1 hp with h1 | h1
      · exact hhead p h1
      · exact ih hts (k + 1) p h1
    | exit c =>
      simp only [drain, hout] at hp
      exact hhead p hp
    | panic =>
      simp only [drain, hout] at hp
      exact hhead p hp

theorem interleave_events (Q : Event → Prop) (sched : List Nat) :
    ∀ tasks : List (Run Unit), (∀ t ∈ tasks, ∀ e ∈ t.trace, Q e) →
      ∀ p ∈ (interleave tasks sched).trace, Q p.2 := by
  induction sched with
  | nil =>
    intro tasks h p hp
    simp only [interleave] at hp
    exact drain_events Q tasks h 0 p hp
  | cons k sched ih =>
    intro tasks h p hp
    cases hk : tasks[k]? with
    | none =>
      simp only [interleave, hk] at hp
      exact ih tasks h p hp
    | some t =>
      have hmem : t ∈ tasks := List.getElem?_mem hk
      cases htr : t.trace with
      | nil =>
        cases hout : t.out with
        | ok u =>
          simp only [interleave, hk, htr, hout] at hp
          exact ih tasks h p hp
        | exit c => simp [interleave, hk, htr, hout] at hp
        | panic => simp [interleave, hk, htr, hout] at hp
      | cons e es =>
        simp only [interleave, hk, htr] at hp
        have hte : ∀ e' ∈ t.trace, Q e' := h t hmem
        rw [htr] at hte
        rcases List.mem_cons.1 hp with h1 | h1
        · rw [h1]
          exact hte e (List.mem_cons_self _ _)
        · refine ih _ ?_ p h1
          intro t' ht' e' he'
          rcases List.mem_or_eq_of_mem_set ht' with h2 | h2
          · exact h t' h2 e' he'
          · rw [h2] at he'
            exact hte e' (List.mem_cons_of_mem _ he')

theorem requestIndex_events (es : Client) (i : Int) (title : String) :
    ∀ e ∈ (requestIndex es i title).trace, e ≠ Event.search := by
  intro e he
  unfold requestIndex at he
  simp only [] at he
  split at he
  · simp at he; rcases he with h | h <;> simp [h]
  · split at he
    · simp at he; rcases he with h | h <;> simp [h]
    · split at he
      · simp at he; rcases he with h | h <;> simp [h]
      · split at he
        · simp at he; rcases he with h | h <;> simp [h]
        · simp at he; simp [he]

theorem indexDocuments_events (es : Client) (titles : List String) (sched : List Nat) :
    Event.search ∉ (indexDocuments es titles sched).trace := by
  intro hmem
  obtain ⟨p, hp, hp2⟩ := List.mem_map.1 hmem
  have hall : ∀ t ∈ spawn es 0 titles, ∀ e ∈ t.trace, e ≠ Event.search := by
    intro t ht e he
    obtain ⟨j, title, _, rfl⟩ := spawn_mem es titles t ht
    exact requestIndex_events es _ title e he
  exact interleave_events (fun e => e ≠ Event.search) sched _ hall p hp hp2

theorem indexDocuments_stops (es : Client) (titles : List String) (sched : List Nat)
    (j : Nat) (title err : String) (hj : titles[j]? = some title)
    (hdo : es.Do (indexRequest (j : Int) title) = Except.error err) :
    (indexDocuments es titles sched).out ≠ Outcome.ok () := by
  apply interleave_stops
  refine ⟨j, requestIndex es (j : Int) title, ?_, ?_⟩
  · simp [spawn_get, hj]
  · simp [requestIndex, hdo]

theorem andThen_out_ok {α β : Type} (m : Run α) (f : α → Run β) (b : β)
    (h : (m.andThen f).out = Outcome.ok b) :
    ∃ a, m.out = Outcome.ok a ∧ (f a).out = Outcome.ok b := by
  unfold Run.andThen at h
  cases hm : m.out with
  | ok a => simp only [hm] at h; exact ⟨a, rfl, h⟩
  | exit c => simp [hm] at h
  | panic => simp [hm] at h

theorem andThen_mem {α β : Type} (m : Run α) (f : α → Run β) (e : Event)
    (h : e ∈ (m.andThen f).trace) :
    e ∈ m.trace ∨ ∃ a, m.out = Outcome.ok a ∧ e ∈ (f a).trace := by
  unfold Run.andThen at h
  cases hm : m.out with
  | ok a =>
    simp only [hm] at h
    rcases List.mem_append.1 h with h1 | h1
    · exact Or.inl h1
    · exact Or.inr ⟨a, rfl, h1⟩
  | exit c => simp only [hm] at h; exact Or.inl h
  | panic => simp only [hm] at h; exact Or.inl h


/-! ## Lemmas on JSON texts -/

theorem scanString_plain (t rest : List Char)
    (h : ∀ c ∈ t, c ≠ '"' ∧ c ≠ '\\' ∧ 0x20 ≤ c.toNat) :
    ∀ fuel, t.length < fuel → scanString fuel (t ++ '"' :: rest) = some (t, rest) := by
  induction t with
  | nil =>
    intro fuel hf
    cases fuel with
    | zero => omega
    | succ n => simp [scanString]
  | cons c cs ih =>
    intro fuel hf
    cases fuel with
    | zero => omega
    | succ n =>
      obtain ⟨h1, h2, h3⟩ := h c (List.mem_cons_self _ _)
      have hcs : ∀ d ∈ cs, d ≠ '"' ∧ d ≠ '\\' ∧ 0x20 ≤ d.toNat :=
        fun d hd => h d (List.mem_cons_of_mem _ hd)
      have hlen : cs.length < n := by simp at hf; omega
      have h4 : ¬ c.toNat < 0x20 := by omega
      have e := ih hcs n hlen
      simp only [List.cons_append, scanString, h1, h2, h4, if_false, List.append_eq, e]

theorem body_data (i : Int) (title : String) :
    (indexRequest i title).Body.data =
      '{' :: '"' :: ("title".data ++ '"' :: ' ' :: ':' :: ' ' :: '"' :: (title.data ++ ['"', '}'])) := by
  cases title with
  | mk l => rfl

theorem singleStringMember_body (i : Int) (title : String)
    (h : ∀ c ∈ title.data, c ≠ '"' ∧ c ≠ '\\' ∧ 0x20 ≤ c.toNat) :
    singleStringMember (indexRequest i title).Body = some ("title", title) := by
  have hname : ∀ c ∈ "title".data, c ≠ '"' ∧ c ≠ '\\' ∧ 0x20 ≤ c.toNat := by decide
  unfold singleStringMember
  rw [body_data]
  have e1 : expect '{' (skipWs ('{' :: '"' :: ("title".data ++ '"' :: ' ' :: ':' :: ' ' :: '"' ::
      (title.data ++ ['"', '}'])))) = some ('"' :: ("title".data ++ '"' :: ' ' :: ':' :: ' ' :: '"' ::
      (title.data ++ ['"', '}']))) := by
    simp [skipWs, isWs, expect]
  simp only [e1]
  have e2 : expect '"' (skipWs ('"' :: ("title".data ++ '"' :: ' ' :: ':' :: ' ' :: '"' ::
      (title.data ++ ['"', '}'])))) = some ("title".data ++ '"' :: ' ' :: ':' :: ' ' :: '"' ::
      (title.data ++ ['"', '}'])) := by
    simp [skipWs, isWs, expect]
  simp only [e2]
  rw [scanString_plain "title".data _ hname _ (by simp)]
  simp only []
  have e3 : expect ':' (skipWs (' ' :: ':' :: ' ' :: '"' :: (title.data ++ ['"', '}'])))
      = some (' ' :: '"' :: (title.data ++ ['"', '}'])) := by
    simp [skipWs, isWs, expect]
  simp only [e3]
  have e4 : expect '"' (skipWs (' ' :: '"' :: (title.data ++ ['"', '}'])))
      = some (title.data ++ ['"', '}']) := by
    simp [skipWs, isWs, expect]
  simp only [e4]
  rw [scanString_plain title.data ['}'] h _ (by simp; omega)]
  simp [skipWs, isWs, expect]

theorem printHits_objects (ms : List JMap) :
    printHits (ms.map Value.obj) = ⟨ms.map fun m => Event.log (hitLine m), Outcome.ok ()⟩ := by
  induction ms with
  | nil => rfl
  | cons m rest ih =>
    simp only [List.map_cons, printHits, ih, Run.andThen, logPrint]
    rfl

theorem indexDocuments_returns (es : Client) (titles : List String) (sched : List Nat)
    (h : ∀ (j : Nat) (title : String), titles[j]? = some title →
      loggedAndReturned (es.Do (indexRequest (j : Int) title)) = true) :
    (indexDocuments es titles sched).out = Outcome.ok () ∧
    (logLines (indexDocuments es titles sched).trace).length = titles.length ∧
    ∀ (j : Nat) (title : String), titles[j]? = some title →
      eventsOf j (indexDocumentsTagged es titles sched).trace
        = (requestIndex es (j : Int) title).trace := by
  have hall : ∀ t ∈ spawn es 0 titles,
      t.out = Outcome.ok () ∧ (logLines t.trace).length = 1 := by
    intro t ht
    obtain ⟨j, title, hj, rfl⟩ := spawn_mem es titles t ht
    exact requestIndex_loggedAndReturned es _ title (h j title hj)
  obtain ⟨h1, h2, h3⟩ := interleave_returns sched (spawn es 0 titles) fun t ht => (hall t ht).1
  refine ⟨h1, ?_, ?_⟩
  · show (logLines ((interleave (spawn es 0 titles) sched).trace.map Prod.snd)).length = _
    rw [h3, pendingLogs_eq_length _ fun t ht => (hall t ht).2, spawn_length]
  · intro j title hj
    show eventsOf j (interleave (spawn es 0 titles) sched).trace = _
    rw [h2 j]
    simp [taskTrace, spawn_get, hj]

theorem position_inRange (titles : List String) (i : Nat) (title : String)
    (hlen : (titles.length : Int) ≤ maxInt) (hi : titles[i]? = some title) :
    (i : Int) + 1 ≤ maxInt := by
  have hlt : i < titles.length := (List.getElem?_eq_some.1 hi).1
  omega

theorem two_positions (P : Nat → String → Prop) (a b : String) (h0 : P 0 a) (h1 : P 1 b) :
    ∀ (j : Nat) (title : String), [a, b][j]? = some title → P j title := by
  intro j title hj
  match j, hj with
  | 0, hj => simp at hj; subst hj; exact h0
  | 1, hj => simp at hj; subst hj; exact h1
  | n + 2, hj => simp at hj

/-! ## The claims -/

/-- C1: for every position `i` of a list of titles (a Go slice holds at most
`maxInt` elements), `requestIndex es i title` issues exactly one index request,
the one built at lines 64-69, and its `DocumentID` is the decimal string of
`i + 1`. -/
theorem requestIndex_documentID (es : Client) (titles : List String) (i : Nat) (title : String)
    (hlen : (titles.length : Int) ≤ maxInt) (hi : titles[i]? = some title) :
    indexRequests (requestIndex es (i : Int) title).trace = [indexRequest (i : Int) title] ∧
      (indexRequest (i : Int) title).DocumentID = Nat.repr (i + 1) :=
  ⟨requestIndex_requests es _ title,
    documentID_of_position i title (position_inRange titles i title hlen hi)⟩

/-- C1 at the two positions of the list in `main`: position 0 gives "1" and
position 1 gives "2". -/
theorem requestIndex_documentID_witness :
    (indexRequest 0 "Test One").DocumentID = "1" ∧ (indexRequest 1 "Test Two").DocumentID = "2" :=
  ⟨(requestIndex_documentID demoClient ["Test One", "Test Two"] 0 "Test One"
      (by decide) rfl).2,
    (requestIndex_documentID demoClient ["Test One", "Test Two"] 1 "Test Two"
      (by decide) rfl).2⟩

/-- C2 as the code has it: when the index call fails in the transport,
`requestIndex` logs `Error getting response: ...` through `log.Fatalf`, which
ends the process with exit status 1; it does not return. In `main`, for every
schedule of the goroutines, the run then does not end normally and the search
is never issued. -/
theorem requestIndex_transport_error_fatal (es : Client) (i : Nat) (title err : String)
    (hdo : es.Do (indexRequest (i : Int) title) = Except.error err) :
    requestIndex es (i : Int) title =
        ⟨[Event.indexReq (indexRequest (i : Int) title),
          Event.log ("Error getting response: " ++ err)], Outcome.exit 1⟩ ∧
      ∀ sched : List Nat, ["Test One", "Test Two"][i]? = some title →
        (main (Except.ok es) sched).out ≠ Outcome.ok () ∧
          Event.search ∉ (main (Except.ok es) sched).trace := by
  refine ⟨by simp [requestIndex, hdo], ?_⟩
  intro sched hj
  have hstop := indexDocuments_stops es ["Test One", "Test Two"] sched i title err hj hdo
  constructor
  · intro h
    unfold main at h
    obtain ⟨es1, h1, h⟩ := andThen_out_ok _ _ _ h
    simp only [newClient, Outcome.ok.injEq] at h1
    subst h1
    obtain ⟨res, _, h⟩ := andThen_out_ok _ _ _ h
    obtain ⟨r, _, h⟩ := andThen_out_ok _ _ _ h
    obtain ⟨_, _, h⟩ := andThen_out_ok _ _ _ h
    obtain ⟨_, h5, _⟩ := andThen_out_ok _ _ _ h
    exact hstop h5
  · intro h
    unfold main at h
    rcases andThen_mem _ _ _ h with h | ⟨es1, h1, h⟩
    · simp [newClient] at h
    simp only [newClient, Outcome.ok.injEq] at h1
    subst h1
    rcases andThen_mem _ _ _ h with h | ⟨res, _, h⟩
    · unfold getClusterInfo at h
      split at h <;> simp at h
    rcases andThen_mem _ _ _ h with h | ⟨r, _, h⟩
    · unfold decodeClusterInfo at h
      split at h <;> simp [logFatal] at h
    rcases andThen_mem _ _ _ h with h | ⟨_, _, h⟩
    · unfold logVersion at h
      split at h <;> simp [logPrint] at h
    rcases andThen_mem _ _ _ h with h | ⟨_, h5, _⟩
    · exact indexDocuments_events es _ sched h
    · exact hstop h5

/-- C2 at the first document of `main`, with a refused connection. -/
theorem requestIndex_transport_error_fatal_witness :
    requestIndex refusedClient 0 "Test One" =
        ⟨[Event.indexReq (indexRequest 0 "Test One"),
          Event.log "Error getting response: connection refused"], Outcome.exit 1⟩ ∧
      (main (Except.ok refusedClient) [1, 0, 1, 0]).out ≠ Outcome.ok () ∧
      Event.search ∉ (main (Except.ok refusedClient) [1, 0, 1, 0]).trace :=
  ⟨(requestIndex_transport_error_fatal refusedClient 0 "Test One" "connection refused" rfl).1,
    (requestIndex_transport_error_fatal refusedClient 0 "Test One" "connection refused" rfl).2
      [1, 0, 1, 0] rfl⟩

/-- C2 fails as stated: with a refused connection on the first document,
`requestIndex` ends the process with status 1 instead of returning, and the
run of `main` exits with status 1 after the fatal line, without a search. -/
theorem requestIndex_transport_error_counterexample :
    (requestIndex refusedClient 0 "Test One").out = Outcome.exit 1 ∧
      main (Except.ok refusedClient) [] =
        ⟨[Event.info, Event.log "~~~~~~~> Elasticsearch 7.8.0-SNAPSHOT",
          Event.indexReq (indexRequest 0 "Test One"),
          Event.log "Error getting response: connection refused"], Outcome.exit 1⟩ := by
  decide

/-- C3: when the index call for the title at position `i` is answered with an
engine-reported error, `requestIndex` issues its one request, logs the one
line `[status] Error indexing document ID=i+1` (the body is not decoded) and
returns; when it is answered with a non-error response whose body fails to
decode, it issues its one request, logs the one line
`Error parsing the response body: ...` and returns. -/
theorem requestIndex_failure_logged_once (es : Client) (titles : List String) (i : Nat)
    (title : String) (res : Response)
    (hlen : (titles.length : Int) ≤ maxInt) (hi : titles[i]? = some title)
    (hdo : es.Do (indexRequest (i : Int) title) = Except.ok res) :
    (res.IsError = true →
      requestIndex es (i : Int) title =
        ⟨[Event.indexReq (indexRequest (i : Int) title),
          Event.log ("[" ++ res.Status ++ "] Error indexing document ID=" ++ Nat.repr (i + 1))],
          Outcome.ok ()⟩) ∧
    (∀ err, res.IsError = false → res.Decode = Except.error err →
      requestIndex es (i : Int) title =
        ⟨[Event.indexReq (indexRequest (i : Int) title),
          Event.log ("Error parsing the response body: " ++ err)],
          Outcome.ok ()⟩) := by
  have hw : Itoa (wrapInt ((i : Int) + 1)) = Nat.repr (i + 1) :=
    Itoa_position i (position_inRange titles i title hlen hi)
  constructor
  · intro he
    simp only [requestIndex, hdo, he, hw, if_true]
  · intro err he hd
    simp [requestIndex, hdo, he, hd]

/-- C3 at the first document of `main`: a rejected call and a garbled body. -/
theorem requestIndex_failure_logged_once_witness :
    requestIndex rejectingClient 0 "Test One" =
        ⟨[Event.indexReq (indexRequest 0 "Test One"),
          Event.log "[429 Too Many Requests] Error indexing document ID=1"], Outcome.ok ()⟩ ∧
      requestIndex (clientWith (Except.ok infoReply) (Except.ok garbledReply)
          (Except.ok searchReply)) 0 "Test One" =
        ⟨[Event.indexReq (indexRequest 0 "Test One"),
          Event.log "Error parsing the response body: unexpected end of JSON input"],
          Outcome.ok ()⟩ :=
  ⟨(requestIndex_failure_logged_once rejectingClient ["Test One", "Test Two"] 0 "Test One"
      (errorReply "429 Too Many Requests" "es_rejected_execution_exception" "queue full")
      (by decide) rfl rfl).1 rfl,
    (requestIndex_failure_logged_once
      (clientWith (Except.ok infoReply) (Except.ok garbledReply) (Except.ok searchReply))
      ["Test One", "Test Two"] 0 "Test One" garbledReply (by decide) rfl rfl).2
      "unexpected end of JSON input" rfl rfl⟩

/-- C4 as the code has it: for every list of titles whose index calls are
each answered with an engine-reported error, an undecodable body or a decoded
envelope with a numeric `_version`, and for every schedule of the goroutines,
`wg.Wait()` returns, exactly as many lines have been logged as there are
titles, and the events of the goroutine of each title are those of its own
`requestIndex`, with exactly one logged line. -/
theorem indexDocuments_logs_each_title (es : Client) (titles : List String) (sched : List Nat)
    (h : ∀ (j : Nat) (title : String), titles[j]? = some title →
      loggedAndReturned (es.Do (indexRequest (j : Int) title)) = true) :
    (indexDocuments es titles sched).out = Outcome.ok () ∧
    (logLines (indexDocuments es titles sched).trace).length = titles.length ∧
    ∀ (j : Nat) (title : String), titles[j]? = some title →
      eventsOf j (indexDocumentsTagged es titles sched).trace
          = (requestIndex es (j : Int) title).trace ∧
        (logLines (eventsOf j (indexDocumentsTagged es titles sched).trace)).length = 1 := by
  obtain ⟨h1, h2, h3⟩ := indexDocuments_returns es titles sched h
  refine ⟨h1, h2, ?_⟩
  intro j title hj
  refine ⟨h3 j title hj, ?_⟩
  rw [h3 j title hj]
  exact (requestIndex_loggedAndReturned es _ title (h j title hj)).2

/-- C4 on the two titles of `main`, the first one rejected by the engine,
with the second goroutine scheduled first. -/
theorem indexDocuments_logs_each_title_witness :
    (indexDocuments rejectingClient ["Test One", "Test Two"] [1, 0, 1, 0]).out = Outcome.ok () ∧
      (logLines (indexDocuments rejectingClient ["Test One", "Test Two"] [1, 0, 1, 0]).trace).length
        = 2 :=
  ⟨(indexDocuments_logs_each_title rejectingClient ["Test One", "Test Two"] [1, 0, 1, 0]
      (two_positions _ _ _ rfl rfl)).1,
    (indexDocuments_logs_each_title rejectingClient ["Test One", "Test Two"] [1, 0, 1, 0]
      (two_positions _ _ _ rfl rfl)).2.1⟩

/-- C4 fails as stated: with a transport error on the first of two titles and
the first goroutine scheduled first, one line is logged and the process exits
with status 1; `wg.Wait()` never returns. -/
theorem indexDocuments_counterexample :
    (indexDocuments refusedClient ["Test One", "Test Two"] [0, 0, 0]).out = Outcome.exit 1 ∧
      logLines (indexDocuments refusedClient ["Test One", "Test Two"] [0, 0, 0]).trace
        = ["Error getting response: connection refused"] := by
  decide

/-- What `decodeResponse` guarantees on a search response: it returns an
envelope `r` exactly when the response is no engine-reported error and its body
decodes to `r`; in every other case the search step of `main` stops inside
`decodeResponse`, so `printResult` is never reached. It ends in `log.Fatalf`
when the body fails to decode and when the response is an engine-reported error
whose envelope holds the `error` object: the search step then consists of the
search call and that one fatal line, and the process exits with status 1. -/
theorem decodeResponse_returns_iff (es : Client) (res : Response)
    (hs : es.Search = Except.ok res) :
    (∀ (status : String) (r : JMap),
      (decodeResponse res status).out = Outcome.ok r ↔
        (res.IsError = false ∧ res.Decode = Except.ok r)) ∧
    ((res.IsError = true ∨ ∃ err, res.Decode = Except.error err) →
      (searchStep es).trace = Event.search :: (decodeResponse res res.Status).trace ∧
        (searchStep es).out ≠ Outcome.ok ()) ∧
    (∀ err, res.Decode = Except.error err →
      ∃ line, decodeResponse res res.Status = logFatal line ∧
        searchStep es = ⟨[Event.search, Event.log line], Outcome.exit 1⟩) ∧
    (∀ r e, res.IsError = true → res.Decode = Except.ok r → index r "error" = Value.obj e →
      decodeResponse res res.Status =
          logFatal ("[" ++ res.Status ++ "] " ++ fmtS (index e "type") ++ ": "
            ++ fmtS (index e "reason")) ∧
        searchStep es =
          ⟨[Event.search, Event.log ("[" ++ res.Status ++ "] " ++ fmtS (index e "type") ++ ": "
            ++ fmtS (index e "reason"))], Outcome.exit 1⟩) := by
  have hiff : ∀ (status : String) (r : JMap),
      (decodeResponse res status).out = Outcome.ok r ↔
        (res.IsError = false ∧ res.Decode = Except.ok r) := by
    intro status r
    unfold decodeResponse
    by_cases he : res.IsError = true
    · simp only [he, if_true]
      cases hd : res.Decode with
      | error err => simp [logFatal]
      | ok r' =>
        simp only []
        split <;> simp [logFatal]
    · simp only [he]
      cases hd : res.Decode with
      | error err => simp [logFatal]
      | ok r' => simp
  refine ⟨hiff, ?_, ?_, ?_⟩
  · intro hfail
    have hnot : ∀ r, (decodeResponse res res.Status).out ≠ Outcome.ok r := by
      intro r hr
      obtain ⟨h1, h2⟩ := (hiff res.Status r).1 hr
      rcases hfail with h | ⟨err, h⟩
      · rw [h1] at h; cases h
      · rw [h2] at h; cases h
    cases hout : (decodeResponse res res.Status).out with
    | ok r => exact absurd hout (hnot r)
    | exit c => simp [searchStep, search, hs, Run.andThen, hout]
    | panic => simp [searchStep, search, hs, Run.andThen, hout]
  · intro err hd
    by_cases he : res.IsError = true
    · exact ⟨"error parsing the response body: " ++ err,
        by simp [decodeResponse, he, hd],
        by simp [searchStep, search, hs, Run.andThen, decodeResponse, he, hd, logFatal]⟩
    · exact ⟨"Error parsing the response body: " ++ err,
        by simp [decodeResponse, he, hd],
        by simp [searchStep, search, hs, Run.andThen, decodeResponse, he, hd, logFatal]⟩
  · intro r e he hd hobj
    exact ⟨by simp [decodeResponse, he, hd, hobj],
      by simp [searchStep, search, hs, Run.andThen, decodeResponse, he, hd, hobj, logFatal]⟩

/-- A search of a missing index: the error envelope ends the search step in
one fatal line, and no hit is printed. -/
theorem decodeResponse_returns_iff_witness :
    searchStep (clientWith (Except.ok infoReply) (Except.ok indexed)
        (Except.ok (errorReply "404 Not Found" "index_not_found_exception" "no such index [test]")))
      = ⟨[Event.search,
          Event.log "[404 Not Found] index_not_found_exception: no such index [test]"],
          Outcome.exit 1⟩ :=
  ((decodeResponse_returns_iff
      (clientWith (Except.ok infoReply) (Except.ok indexed)
        (Except.ok (errorReply "404 Not Found" "index_not_found_exception" "no such index [test]")))
      (errorReply "404 Not Found" "index_not_found_exception" "no such index [test]") rfl).2.2.2
    _ _ rfl rfl rfl).2

/-- C5, on the code: at a search answered 405 with the body
`{"error":"Incorrect HTTP method","status":405}` the assertion of line 101 on
`r["error"]` fails while the operands of `log.Fatalf` are evaluated.
`decodeResponse` ends in a panic with nothing logged, where the claim has a
fatal log; the search step stops there and `printResult` is not reached. -/
theorem decodeResponse_error_text_panics :
    (decodeResponse methodNotAllowed methodNotAllowed.Status).trace = [] ∧
    (decodeResponse methodNotAllowed methodNotAllowed.Status).out = Outcome.panic ∧
    searchStep (clientWith (Except.ok infoReply) (Except.ok indexed)
        (Except.ok methodNotAllowed))
      = ⟨[Event.search], Outcome.panic⟩ ∧
    logLines (searchStep (clientWith (Except.ok infoReply) (Except.ok indexed)
        (Except.ok methodNotAllowed))).trace = [] :=
  ⟨rfl, rfl, by decide, by decide⟩

/-- What `main` guarantees on the cluster-info step: when `es.Info` fails in
the transport, or answers with a body that fails to decode, `main` ends in
`log.Fatalf` right there, for every schedule: the process exits with status 1,
the fatal line is the only line logged and no index request is issued. -/
theorem main_info_failure_fatal (es : Client) (sched : List Nat) (err : String)
    (hfail : es.Info = Except.error err ∨
      ∃ res, es.Info = Except.ok res ∧ res.Decode = Except.error err) :
    (main (Except.ok es) sched).out = Outcome.exit 1 ∧
    indexRequests (main (Except.ok es) sched).trace = [] ∧
    logLines (main (Except.ok es) sched).trace =
      [(match es.Info with
        | Except.error _ => "Error getting response: "
        | Except.ok _ => "Error parsing the response body: ") ++ err] := by
  rcases hfail with h | ⟨res, h, hd⟩
  · simp [main, newClient, getClusterInfo, h, Run.andThen, indexRequests, logLines]
  · simp [main, newClient, getClusterInfo, decodeClusterInfo, h, hd, Run.andThen, logFatal,
      indexRequests, logLines]

/-- A refused connection on the cluster-info call. -/
theorem main_info_failure_fatal_witness :
    (main (Except.ok (clientWith (Except.error "connection refused") (Except.ok indexed)
        (Except.ok searchReply))) [0, 1]).out = Outcome.exit 1 ∧
      indexRequests (main (Except.ok (clientWith (Except.error "connection refused")
        (Except.ok indexed) (Except.ok searchReply))) [0, 1]).trace = [] ∧
      logLines (main (Except.ok (clientWith (Except.error "connection refused")
        (Except.ok indexed) (Except.ok searchReply))) [0, 1]).trace
        = ["Error getting response: connection refused"] :=
  main_info_failure_fatal
    (clientWith (Except.error "connection refused") (Except.ok indexed) (Except.ok searchReply))
    [0, 1] "connection refused" (Or.inl rfl)

/-- C6, on the code: `getClusterInfo` and `decodeClusterInfo` never test
`res.IsError()`. At a cluster-info call answered 401 with the body
`{"error":{"type":"security_exception","reason":"missing credentials"}}` the
run ends in a panic on `r["version"]` at line 151 with nothing logged, where
the claim has a fatal log; at one answered 503 with a body that holds the
version the run goes on, issues both index requests and logs their lines,
where the claim has the run stopped before any indexing. -/
theorem main_info_engine_error_unchecked :
    main (Except.ok (clientWith
        (Except.ok (errorReply "401 Unauthorized" "security_exception" "missing credentials"))
        (Except.ok indexed) (Except.ok searchReply))) []
      = ⟨[Event.info], Outcome.panic⟩ ∧
    indexRequests (main (Except.ok (clientWith
        (Except.ok ⟨true, "503 Service Unavailable", infoReply.Decode⟩)
        (Except.ok indexed) (Except.ok searchReply))) []).trace
      = [indexRequest 0 "Test One", indexRequest 1 "Test Two"] ∧
    logLines (main (Except.ok (clientWith
        (Except.ok ⟨true, "503 Service Unavailable", infoReply.Decode⟩)
        (Except.ok indexed) (Except.ok searchReply))) []).trace
      = ["~~~~~~~> Elasticsearch 7.8.0-SNAPSHOT", "[200 OK] updated; version=1",
          "[200 OK] updated; version=1", "-------------------------------------",
          " * ID=1, map[title:Test One]", " * ID=2, map[title:Test Two]",
          "====================================="] := by
  decide

/-- C7: for every decoded envelope whose `hits.hits` is a list of `k` hit
objects, `printResult` returns after logging exactly `k` lines, the `j`-th
being ` * ID=` with the `_id` and the `_source` of the `j`-th hit, in the
order of the list. -/
theorem printResult_lines (r h : JMap) (ms : List JMap) (status : String)
    (hr : index r "hits" = Value.obj h) (hh : index h "hits" = Value.arr (ms.map Value.obj)) :
    printResult r status = ⟨ms.map fun m => Event.log (hitLine m), Outcome.ok ()⟩ ∧
    logLines (printResult r status).trace = ms.map hitLine ∧
    (logLines (printResult r status).trace).length = ms.length := by
  have h1 : printResult r status = ⟨ms.map fun m => Event.log (hitLine m), Outcome.ok ()⟩ := by
    simp only [printResult, hr, hh, printHits_objects]
  have h2 : ∀ l : List JMap, logLines (l.map fun m => Event.log (hitLine m)) = l.map hitLine := by
    intro l
    induction l with
    | nil => rfl
    | cons m rest ih => simp [logLines, ih]
  refine ⟨h1, ?_, ?_⟩
  · rw [h1]; exact h2 ms
  · rw [h1]; simp [h2 ms]

/-- C7 on the two hits of the expected output: `ID=1` is printed, then
`ID=2`. -/
theorem printResult_lines_witness :
    logLines (printResult searchEnvelope "200 OK").trace
      = [" * ID=1, map[title:Test One]", " * ID=2, map[title:Test Two]"] :=
  (printResult_lines searchEnvelope twoHits [hit "1" "Test One", hit "2" "Test Two"] "200 OK"
    rfl rfl).2.1

/-- C8 as the code has it: on a non-error response whose body decodes to an
envelope with a numeric `_version`, `requestIndex` asserts without panic,
issues its one request, logs the one line `[status] result; version=N` made of
the response status, the `result` field and the version number, and returns.
The line does not carry the document identifier. -/
theorem requestIndex_success_line (es : Client) (i : Int) (title : String) (res : Response)
    (r : JMap) (f : Float64)
    (hdo : es.Do (indexRequest i title) = Except.ok res)
    (hok : res.IsError = false) (hdec : res.Decode = Except.ok r)
    (hver : index r "_version" = Value.num f) :
    requestIndex es i title =
      ⟨[Event.indexReq (indexRequest i title),
        Event.log ("[" ++ res.Status ++ "] " ++ fmtS (index r "result") ++ "; version="
          ++ Itoa f.toInt)],
        Outcome.ok ()⟩ := by
  simp [requestIndex, hdo, hok, hdec, hver]

/-- C8 on the first document of `main`, as in the expected output. -/
theorem requestIndex_success_line_witness :
    requestIndex demoClient 0 "Test One" =
      ⟨[Event.indexReq (indexRequest 0 "Test One"), Event.log "[200 OK] updated; version=1"],
        Outcome.ok ()⟩ :=
  requestIndex_success_line demoClient 0 "Test One" indexed
    [("result", Value.str "updated"), ("_version", Value.num ⟨1, "1"⟩)] ⟨1, "1"⟩ rfl rfl rfl rfl

/-- C8 fails as stated: when the first document, whose identifier is "1", is
indexed anew and the engine answers with version 2, the one line logged is
`[200 OK] updated; version=2`, which does not contain the identifier. -/
theorem requestIndex_success_counterexample :
    (indexRequest 0 "Test One").DocumentID = "1" ∧
      requestIndex (clientWith (Except.ok infoReply) (Except.ok reindexed) (Except.ok searchReply))
          0 "Test One" =
        ⟨[Event.indexReq (indexRequest 0 "Test One"), Event.log "[200 OK] updated; version=2"],
          Outcome.ok ()⟩ ∧
      occursIn "1".data "[200 OK] updated; version=2".data = false := by
  decide

/-- C9: take a list of titles and two runs of the fan-out, under any two
schedules, whose answers differ only for the document at position `k` (for
instance a success in the first run and an engine-reported error in the
second), every answer being one on which `requestIndex` returns. Then both
runs reach the end of `wg.Wait()`, and for every other position `j` the events
of its goroutine are the same in both runs; when `j` is answered with a
success, the one line logged for it is `[status] result; version=N`, built
from its own response. -/
theorem indexDocuments_isolation (es es' : Client) (titles : List String) (k : Nat)
    (sched sched' : List Nat)
    (hsame : ∀ (j : Nat) (title : String), titles[j]? = some title → j ≠ k →
      es'.Do (indexRequest (j : Int) title) = es.Do (indexRequest (j : Int) title))
    (hret : ∀ (j : Nat) (title : String), titles[j]? = some title →
      loggedAndReturned (es.Do (indexRequest (j : Int) title)) = true)
    (hret' : ∀ title : String, titles[k]? = some title →
      loggedAndReturned (es'.Do (indexRequest (k : Int) title)) = true) :
    (indexDocuments es titles sched).out = Outcome.ok () ∧
    (indexDocuments es' titles sched').out = Outcome.ok () ∧
    ∀ (j : Nat) (title : String), titles[j]? = some title → j ≠ k →
      eventsOf j (indexDocumentsTagged es' titles sched').trace
          = eventsOf j (indexDocumentsTagged es titles sched).trace ∧
        ∀ (res : Response) (r : JMap) (f : Float64),
          es.Do (indexRequest (j : Int) title) = Except.ok res → res.IsError = false →
          res.Decode = Except.ok r → index r "_version" = Value.num f →
          logLines (eventsOf j (indexDocumentsTagged es' titles sched').trace)
            = ["[" ++ res.Status ++ "] " ++ fmtS (index r "result") ++ "; version="
                ++ Itoa f.toInt] := by
  have hall' : ∀ (j : Nat) (title : String), titles[j]? = some title →
      loggedAndReturned (es'.Do (indexRequest (j : Int) title)) = true := by
    intro j title hj
    by_cases hjk : j = k
    · subst hjk
      exact hret' title hj
    · rw [hsame j title hj hjk]
      exact hret j title hj
  obtain ⟨h1, _, h3⟩ := indexDocuments_returns es titles sched hret
  obtain ⟨h1', _, h3'⟩ := indexDocuments_returns es' titles sched' hall'
  refine ⟨h1, h1', ?_⟩
  intro j title hj hjk
  have hreq : requestIndex es' (j : Int) title = requestIndex es (j : Int) title := by
    simp only [requestIndex, hsame j title hj hjk]
  refine ⟨by rw [h3' j title hj, h3 j title hj, hreq], ?_⟩
  intro res r f hdo hok hdec hver
  rw [h3' j title hj, hreq]
  simp [requestIndex, hdo, hok, hdec, hver, logLines]

/-- C9 on the two titles of `main`: the first document succeeds in one run and
is rejected in the other, under different schedules; the second document is
logged with its own status, result and version in both. -/
theorem indexDocuments_isolation_witness :
    (indexDocuments demoClient ["Test One", "Test Two"] [0, 1, 0, 1]).out = Outcome.ok () ∧
    (indexDocuments rejectingClient ["Test One", "Test Two"] [1, 1, 0, 0]).out = Outcome.ok () ∧
    eventsOf 1 (indexDocumentsTagged rejectingClient ["Test One", "Test Two"] [1, 1, 0, 0]).trace
      = eventsOf 1 (indexDocumentsTagged demoClient ["Test One", "Test Two"] [0, 1, 0, 1]).trace ∧
    logLines (eventsOf 1
        (indexDocumentsTagged rejectingClient ["Test One", "Test Two"] [1, 1, 0, 0]).trace)
      = ["[200 OK] updated; version=1"] :=
  ⟨(indexDocuments_isolation demoClient rejectingClient ["Test One", "Test Two"] 0
      [0, 1, 0, 1] [1, 1, 0, 0]
      (two_positions _ _ _ (fun h => absurd rfl h) (fun _ => rfl))
      (two_positions _ _ _ rfl rfl) (fun _ _ => rfl)).1,
    (indexDocuments_isolation demoClient rejectingClient ["Test One", "Test Two"] 0
      [0, 1, 0, 1] [1, 1, 0, 0]
      (two_positions _ _ _ (fun h => absurd rfl h) (fun _ => rfl))
      (two_positions _ _ _ rfl rfl) (fun _ _ => rfl)).2.1,
    ((indexDocuments_isolation demoClient rejectingClient ["Test One", "Test Two"] 0
      [0, 1, 0, 1] [1, 1, 0, 0]
      (two_positions _ _ _ (fun h => absurd rfl h) (fun _ => rfl))
      (two_positions _ _ _ rfl rfl) (fun _ _ => rfl)).2.2 1 "Test Two" rfl (by decide)).1,
    ((indexDocuments_isolation demoClient rejectingClient ["Test One", "Test Two"] 0
      [0, 1, 0, 1] [1, 1, 0, 0]
      (two_positions _ _ _ (fun h => absurd rfl h) (fun _ => rfl))
      (two_positions _ _ _ rfl rfl) (fun _ _ => rfl)).2.2 1 "Test Two" rfl (by decide)).2
      indexed [("result", Value.str "updated"), ("_version", Value.num ⟨1, "1"⟩)] ⟨1, "1"⟩
      rfl rfl rfl rfl⟩

/-- C10: the body of the request `requestIndex` issues is the text
`{"title" : "`, the title as it is, and `"}`. For every title free of double
quotes, backslashes and control characters (below U+0020) that body is a JSON
object whose only member is `title` with the title as its string value; for
the title `a"b`, which holds a double quote, it is not. -/
theorem requestIndex_body (es : Client) (i : Int) (title : String) :
    indexRequests (requestIndex es i title).trace = [indexRequest i title] ∧
    (indexRequest i title).Body = "\x7b\"title\" : \"" ++ title ++ "\"\x7d" ∧
    ((∀ c ∈ title.data, c ≠ '"' ∧ c ≠ '\\' ∧ 0x20 ≤ c.toNat) →
      singleStringMember (indexRequest i title).Body = some ("title", title)) ∧
    ('"' ∈ "a\"b".data ∧
      singleStringMember (indexRequest i "a\"b").Body ≠ some ("title", "a\"b")) := by
  refine ⟨requestIndex_requests es i title, rfl, singleStringMember_body i title, by decide, ?_⟩
  have h : singleStringMember (indexRequest i "a\"b").Body = none := by
    unfold singleStringMember
    rw [body_data]
    decide
  rw [h]
  simp

/-- C10 on the first title of `main`. -/
theorem requestIndex_body_witness :
    (indexRequest 0 "Test One").Body = "\x7b\"title\" : \"Test One\"\x7d" ∧
      singleStringMember (indexRequest 0 "Test One").Body = some ("title", "Test One") :=
  ⟨(requestIndex_body demoClient 0 "Test One").2.1,
    (requestIndex_body demoClient 0 "Test One").2.2.1 (by decide)⟩

end EsDemo
